import Mathlib

/-!
# Command filter and logging hooks of the redis client wrapper

A shallow embedding of `go_redis.go` and `logger.go`.

Conventions of the embedding:

* a Go `error` is `Option GoError`, `none` being the nil error;
* a `map[string]struct{}` is the list of its keys (the value type has one value), a nil map
  being `none` where the source distinguishes it;
* a `context.Context` is the chain of key/value pairs added by `context.WithValue`, newest first;
* reads of the clock and of the call stack are inputs (`now`, `callerFile`, `callerLine`);
* a call of a `Logger` method is recorded as a `LogCall`, the list of them being the output;
* a run-time panic (a failed single-value type assertion) is the result `none`;
* references (`Op`, `Op.Config`, loggers, commands) are taken to be non-nil wherever the source
  dereferences them without a check.
-/

set_option autoImplicit false

namespace GoRedis

/-! ## Errors -/

/-- Dynamic values of the Go interface `error` that the package meets: the string type
`proto.RedisError` of the client library (compared by content) and the pointer type returned by
`errors.New` (compared by identity, here the number `id`). -/
inductive GoError where
  | RedisError (msg : String)
  | errorString (id : Nat) (msg : String)
  deriving DecidableEq, Repr

/-- `Nil = redis.Nil`, the "key not found" sentinel of the client library. -/
def Nil : GoError := GoError.RedisError "redis: nil"

/-- `ErrorNotAllow = errors.New("error not allow ")`. -/
def ErrorNotAllow : GoError := GoError.errorString 0 "error not allow "

/-! ## Commands -/

/-- One element of `cmd.Args()`, a `[]interface{}`. -/
inductive Arg where
  | str (s : String)
  | int (n : Int)
  deriving DecidableEq, Repr

/-- `cast.ToString` on a command argument. -/
def castToString : Arg → String
  | Arg.str s => s
  | Arg.int n => toString n

/-- The part of `redis.Cmder` the hooks read: `Name()`, `Args()` and `Err()`. -/
structure Cmder where
  Name : String
  Args : List Arg
  Err : Option GoError
  deriving DecidableEq, Repr

/-! ## Contexts -/

/-- A context key: a value of the package's string type `TimeKey`, or of another type. -/
inductive CtxKey where
  | TimeKey (s : String)
  | other (typ : String) (s : String)
  deriving DecidableEq, Repr

/-- A value stored in a context, by dynamic type. -/
inductive CtxVal where
  | int64 (n : Int)
  | bool (b : Bool)
  | other (s : String)
  deriving DecidableEq, Repr

/-- `RedisStartKey = TimeKey("redisTimeStart")`. -/
def RedisStartKey : CtxKey := CtxKey.TimeKey "redisTimeStart"

/-- `DebugLogKey = TimeKey("debugOn")`. -/
def DebugLogKey : CtxKey := CtxKey.TimeKey "debugOn"

/-- `RedisTimeCost = "redisTimeCost/us"`. -/
def RedisTimeCost : String := "redisTimeCost/us"

/-- `nsToMsRate = 1000`. -/
def nsToMsRate : Int := 1000

/-- A `context.Context`: the pairs added by `WithValue`, newest first. -/
abbrev Context := List (CtxKey × CtxVal)

/-- `context.WithValue(ctx, k, v)`: a child context, the parent is untouched. -/
def Context.WithValue (ctx : Context) (k : CtxKey) (v : CtxVal) : Context :=
  (k, v) :: ctx

/-- `ctx.Value(k)`: the newest value stored under `k`, `none` for a nil interface. -/
def Context.Value : Context → CtxKey → Option CtxVal
  | [], _ => none
  | (k1, v) :: rest, k => if k1 = k then some v else Context.Value rest k

/-- A value of Go type `int64` obtained from the mathematical result of an operation. -/
def wrapInt64 (x : Int) : Int :=
  (x + 2 ^ 63) % 2 ^ 64 - 2 ^ 63

/-- `time.Now().UnixNano()/nsToMsRate` for a clock reading `now` (Go division truncates). -/
def nowMicros (now : Int) : Int :=
  Int.tdiv now nsToMsRate

/-! ## Loggers -/

/-- The value of a structured field built by `zap.Any`. -/
inductive ZapVal where
  | str (s : String)
  | int (n : Int)
  deriving DecidableEq, Repr

/-- A structured field `zap.Any(key, val)`. -/
structure ZapField where
  key : String
  val : ZapVal
  deriving DecidableEq, Repr

/-- A `*zap.Logger`: its core, by name, and the fields attached to it so far. -/
structure ZapLogger where
  core : String
  fields : List ZapField
  deriving DecidableEq, Repr

/-- `z.With(fs...)`: a logger with the fields added; `z` itself is unchanged. -/
def ZapLogger.With (z : ZapLogger) (fs : List ZapField) : ZapLogger :=
  { z with fields := z.fields ++ fs }

/-- A non-nil value of the interface `Logger`: the package's `DefaultLog`, or an implementation
of another type (such as `NewLogger` of the tests), identified by name. -/
inductive Logger where
  | DefaultLog (z : ZapLogger)
  | other (name : String)
  deriving DecidableEq, Repr

/-- The two methods of `Logger` the hooks call. -/
inductive Level where
  | Debug
  | Error
  deriving DecidableEq, Repr

/-- An argument passed after the format string of a logger call. -/
inductive FmtArg where
  | str (s : String)
  | int (n : Int)
  | args (a : List Arg)
  | err (e : GoError)
  deriving DecidableEq, Repr

/-- One call `logger.method(format, args...)`: one log entry. -/
structure LogCall where
  logger : Logger
  method : Level
  format : String
  args : List FmtArg
  deriving DecidableEq, Repr

/-- `l.Debug(format, args...)`. -/
def Logger.Debug (l : Logger) (format : String) (args : List FmtArg) : LogCall :=
  { logger := l, method := Level.Debug, format := format, args := args }

/-- `l.Error(format, args...)`. -/
def Logger.Error (l : Logger) (format : String) (args : List FmtArg) : LogCall :=
  { logger := l, method := Level.Error, format := format, args := args }

/-- The structured fields a log entry carries: those attached to the zap logger inside a
`DefaultLog` (`DefaultLog.Debug` and `DefaultLog.Error` forward to it); none for another logger,
which only gets the format string and its arguments. -/
def LogCall.fields (c : LogCall) : List ZapField :=
  match c.logger with
  | Logger.DefaultLog z => z.fields
  | Logger.other _ => []

/-! ## Configuration, handle and hook -/

/-- `redis.Options`, passed through to the client library. -/
structure Options where
  Addr : String
  deriving DecidableEq, Repr

/-- `type contextToLog func(context.Context) Logger`. The function may read the package variable
`redisLogger` (as the default one does), which is its first argument here. -/
abbrev contextToLog := Logger → Context → Logger

/-- `Config`. `ContextToLog` may be nil, `BindCmd` may be a nil map. -/
structure Config where
  Options : Options
  Debug : Bool
  ContextToLog : Option contextToLog
  BindCmd : Option (List String)

/-- `GoRedisHook`. -/
structure GoRedisHook where
  inDisable : String → Bool
  contextToLog : contextToLog

/-- `redis.Client`: the options it was built from and the hooks added to it. -/
structure Client where
  options : Options
  hooks : List GoRedisHook

/-- `redis.NewClient(opt)`. -/
def NewClient (opt : Options) : Client :=
  { options := opt, hooks := [] }

/-- `c.AddHook(hook)`. -/
def Client.AddHook (c : Client) (hook : GoRedisHook) : Client :=
  { c with hooks := c.hooks ++ [hook] }

/-- `GoRedisOp`. -/
structure GoRedisOp where
  Cli : Client
  Config : Config
  bindCmd : List String

/-- `m[k] = struct{}{}` on a `map[string]struct{}`. -/
def mapSet (m : List String) (k : String) : List String :=
  if k ∈ m then m else m ++ [k]

/-- `inDisableCmd`: `_, ok := op.bindCmd[name]`. -/
def GoRedisOp.inDisableCmd (op : GoRedisOp) (name : String) : Bool :=
  if name ∈ op.bindCmd then true else false

/-- `DefaultContextToLogger`: the returned function calls `GetLogger()`, which reads the package
variable `redisLogger`. -/
def DefaultContextToLogger : contextToLog :=
  fun redisLogger _ => redisLogger

/-! ## Before hooks -/

/-- `BeforeProcess`; `now` is `time.Now().UnixNano()`. -/
def GoRedisHook.BeforeProcess (g : GoRedisHook) (now : Int) (ctx : Context) (cmd : Cmder) :
    Context × Option GoError :=
  let ctx := ctx.WithValue RedisStartKey (CtxVal.int64 (nowMicros now))
  if g.inDisable cmd.Name then
    (ctx, some ErrorNotAllow)
  else
    (ctx, none)

/-- The loop of `BeforeProcessPipeline`: is there a command whose name `Op` disables. -/
def anyDisabled (Op : GoRedisOp) : List Cmder → Bool
  | [] => false
  | cmd :: rest => if Op.inDisableCmd cmd.Name then true else anyDisabled Op rest

/-- `BeforeProcessPipeline`; `Op` is the package variable, `now` is `time.Now().UnixNano()`. -/
def GoRedisHook.BeforeProcessPipeline (_g : GoRedisHook) (Op : GoRedisOp) (now : Int)
    (ctx : Context) (cmds : List Cmder) : Context × Option GoError :=
  let ctx := ctx.WithValue RedisStartKey (CtxVal.int64 (nowMicros now))
  if anyDisabled Op cmds then
    (ctx, some ErrorNotAllow)
  else
    (ctx, none)

/-! ## After hooks -/

/-- What an after hook reads besides its arguments: the package variables `Op` and `redisLogger`,
the clock (`time.Now().UnixNano()`) and the caller found by `runtime.Caller(4)`. -/
structure Runtime where
  Op : GoRedisOp
  redisLogger : Logger
  now : Int
  callerFile : String
  callerLine : Int

/-- `ctxDebug, ok := ctx.Value(DebugLogKey).(bool)`. -/
def debugFlag (ctx : Context) : Bool × Bool :=
  match ctx.Value DebugLogKey with
  | some (CtxVal.bool b) => (b, true)
  | _ => (false, false)

/-- `ctx.Value(RedisStartKey).(int64)`; the single-value assertion panics (`none`) when the
context holds no `int64` under the key. -/
def startTime (ctx : Context) : Option Int :=
  match ctx.Value RedisStartKey with
  | some (CtxVal.int64 n) => some n
  | _ => none

/-- `time.Now().UnixNano()/nsToMsRate-timeStart`, an `int64`. -/
def timeCost (rt : Runtime) (timeStart : Int) : Int :=
  wrapInt64 (nowMicros rt.now - timeStart)

/-- The fields both after hooks attach to a `DefaultLog`:
`zap.Any("real_caller", file), zap.Any("line", no), zap.Any(RedisTimeCost, cost)`. -/
def callerFields (rt : Runtime) (timeStart : Int) : List ZapField :=
  [{ key := "real_caller", val := ZapVal.str rt.callerFile },
   { key := "line", val := ZapVal.int rt.callerLine },
   { key := RedisTimeCost, val := ZapVal.int (timeCost rt timeStart) }]

/-- `AfterProcess`. The result is the list of logger calls made and the returned error. -/
def GoRedisHook.AfterProcess (g : GoRedisHook) (rt : Runtime) (ctx : Context) (cmd : Cmder) :
    Option (List LogCall × Option GoError) :=
  let (ctxDebug, ok) := debugFlag ctx
  if cmd.Err.isSome || (ok && ctxDebug) || rt.Op.Config.Debug then
    let newLog := g.contextToLog rt.redisLogger ctx
    match startTime ctx with
    | none => none
    | some timeStart =>
      let file := rt.callerFile
      let no := rt.callerLine
      match newLog with
      | Logger.DefaultLog z =>
        let dLog := Logger.DefaultLog (z.With (callerFields rt timeStart))
        match cmd.Err with
        | some e =>
          some ([dLog.Error "redis error:cmd:%v,err:%v" [FmtArg.args cmd.Args, FmtArg.err e]],
            none)
        | none => some ([dLog.Debug "cmd:%v" [FmtArg.args cmd.Args]], none)
      | Logger.other _ =>
        match cmd.Err with
        | some e =>
          some ([newLog.Error
            "real_caller:%s,line:%d,redisTimeCost/us:%d,redis error:cmd:%v,err:%v"
            [FmtArg.str file, FmtArg.int no, FmtArg.int (timeCost rt timeStart),
              FmtArg.args cmd.Args, FmtArg.err e]], none)
        | none =>
          some ([newLog.Debug "real_caller:%s,line:%d,redisTimeCost/us:%d,cmd:%v"
            [FmtArg.str file, FmtArg.int no, FmtArg.int (timeCost rt timeStart),
              FmtArg.args cmd.Args]], none)
  else
    some ([], none)

/-- The first loop of `AfterProcessPipeline`: `cmdErr`, the first command whose `Err()` is
non-nil, or `none` (the nil interface) when the loop ends without a `break`. -/
def firstFailed : List Cmder → Option Cmder
  | [] => none
  | v :: rest => if v.Err.isSome then some v else firstFailed rest

/-- The test `cmdErr != nil && cmdErr.Err() != nil`, with the command and its error when it
holds. -/
def failure (cmdErr : Option Cmder) : Option (Cmder × GoError) :=
  match cmdErr with
  | none => none
  | some c =>
    match c.Err with
    | none => none
    | some e => some (c, e)

/-- The inner loop over `v.Args()`: `args += cast.ToString(a); args += " "`. -/
def appendArgs (args : String) : List Arg → String
  | [] => args
  | a :: rest => appendArgs ((args ++ castToString a) ++ " ") rest

/-- The outer loop over `cmds`: the arguments of each command, then `args += ";  "`. -/
def appendCmds (args : String) : List Cmder → String
  | [] => args
  | v :: rest => appendCmds (appendArgs args v.Args ++ ";  ") rest

/-- `AfterProcessPipeline`. The result is the list of logger calls made and the returned
error. -/
def GoRedisHook.AfterProcessPipeline (g : GoRedisHook) (rt : Runtime) (ctx : Context)
    (cmds : List Cmder) : Option (List LogCall × Option GoError) :=
  let (ctxDebug, ok) := debugFlag ctx
  let cmdErr := firstFailed cmds
  if (failure cmdErr).isSome || (ok && ctxDebug) || rt.Op.Config.Debug then
    let newLog := g.contextToLog rt.redisLogger ctx
    match startTime ctx with
    | none => none
    | some timeStart =>
      let file := rt.callerFile
      let no := rt.callerLine
      let args := appendCmds "" cmds
      match newLog with
      | Logger.DefaultLog z =>
        let dLog := Logger.DefaultLog (z.With (callerFields rt timeStart))
        match failure cmdErr with
        | some (c, e) =>
          some ([dLog.Error "redis error:cmd:%v,err:%v" [FmtArg.args c.Args, FmtArg.err e]],
            none)
        | none => some ([newLog.Debug "redis pipeline cmds:%s" [FmtArg.str args]], none)
      | Logger.other _ =>
        match failure cmdErr with
        | some (c, e) =>
          some ([newLog.Error
            "real_caller:%s,line:%d,redisTimeCost/us:%d,redis error:cmd:%v,err:%v"
            [FmtArg.str file, FmtArg.int no, FmtArg.int (timeCost rt timeStart),
              FmtArg.args c.Args, FmtArg.err e]], none)
        | none =>
          match failure cmdErr with
          | some (c, e) =>
            some ([newLog.Error
              "real_caller:%s,line:%d,redisTimeCost/us:%d,redis error:cmd:%v,err:%v"
              [FmtArg.str file, FmtArg.int no, FmtArg.int (timeCost rt timeStart),
                FmtArg.args c.Args, FmtArg.err e]], none)
          | none =>
            some ([newLog.Debug "real_caller:%s,line:%d,redisTimeCost/us:%d,cmd:%v"
              [FmtArg.str file, FmtArg.int no, FmtArg.int (timeCost rt timeStart),
                FmtArg.str args]], none)
  else
    some ([], none)

/-! ## Initialisation -/

/-- The package variables, and the logger installed in the client library by
`redis.SetLogger`. `Op` is nil until `InitRedis` is first called. -/
structure Pkg where
  Op : Option GoRedisOp
  redisLogger : Logger
  libLogger : Option Logger

/-- The outcome of `InitRedis`: the package variables after the call, `*config` after the call,
the two returned values and the logger calls made by `InitRedis` itself. -/
structure InitResult where
  pkg : Pkg
  config : Config
  handle : Option GoRedisOp
  err : Option GoError
  logs : List LogCall

/-- `for k := range config.BindCmd { Op.bindCmd[k] = struct{}{} }`; ranging over a nil map runs
no iteration. -/
def rangeBind (bind : Option (List String)) (m : List String) : List String :=
  match bind with
  | none => m
  | some ks => ks.foldl mapSet m

/-- `InitRedis`. `pingErr` is `s.Err()` of the probe `Op.Cli.Ping(context.Background())`, which
the client library runs. -/
def InitRedis (pkg : Pkg) (config : Config) (pingErr : Option GoError) : InitResult :=
  let bindCmd := mapSet (rangeBind config.BindCmd []) "flushdb"
  let op0 : GoRedisOp :=
    { Cli := NewClient config.Options, Config := config, bindCmd := bindCmd }
  let libLogger := some pkg.redisLogger
  let inDisable := op0.inDisableCmd
  let config :=
    match config.ContextToLog with
    | none => { config with ContextToLog := some DefaultContextToLogger }
    | some _ => config
  let hook : GoRedisHook :=
    { inDisable := inDisable, contextToLog := config.ContextToLog.getD DefaultContextToLogger }
  let Op : GoRedisOp :=
    { Cli := op0.Cli.AddHook hook, Config := config, bindCmd := bindCmd }
  let pkg1 : Pkg := { Op := some Op, redisLogger := pkg.redisLogger, libLogger := libLogger }
  match pingErr with
  | some err =>
    { pkg := pkg1, config := config, handle := none, err := some err,
      logs := [pkg.redisLogger.Error "Redis tcp ping error:%v" [FmtArg.err err]] }
  | none =>
    { pkg := pkg1, config := config, handle := some Op, err := none, logs := [] }

/-! ## Normalising the nil sentinel -/

/-- `IsRedisNilErr`. -/
def IsRedisNilErr (err : Option GoError) : Option GoError :=
  if err ≠ none ∧ err = some Nil then
    none
  else
    err

/-! ## Debug toggling -/

/-- `SwitchDebug(flag)`: `Op.Config.Debug = flag`, on the package variable `Op` given here. -/
def SwitchDebug (Op : GoRedisOp) (flag : Bool) : GoRedisOp :=
  { Op with Config := { Op.Config with Debug := flag } }

/-- `GetDebugContext`: `context.WithValue(ctx, DebugLogKey, true)`. -/
def GetDebugContext (ctx : Context) : Context :=
  ctx.WithValue DebugLogKey (CtxVal.bool true)

/-! ## Values of the test file -/

/-- The logger `init` installs: `DefaultLog{log}` with `log` from `zap.NewDevelopment()`. -/
def initLogger : Logger :=
  Logger.DefaultLog { core := "development", fields := [] }

/-- The package variables when the program starts: `Op` nil, `redisLogger` set by `init`. -/
def initPkg : Pkg :=
  { Op := none, redisLogger := initLogger, libLogger := none }

/-- The configuration of `initRedisByExample`: only `Options.Addr` is set. -/
def exampleConfig : Config :=
  { Options := { Addr := "127.0.0.1:6379" }, Debug := false, ContextToLog := none,
    BindCmd := none }

/-- A configuration that also disables "get". -/
def bindGetConfig : Config :=
  { Options := { Addr := "127.0.0.1:6379" }, Debug := false, ContextToLog := none,
    BindCmd := some ["get"] }

/-- `Set(ctx, "aaa", "aaa", time.Second)` after it succeeded. -/
def cmdSet : Cmder :=
  { Name := "set", Args := [Arg.str "set", Arg.str "aaa", Arg.str "aaa", Arg.str "ex", Arg.int 1],
    Err := none }

/-- The error the store answers to `HDel` on a key that holds a string. -/
def wrongType : GoError :=
  GoError.RedisError "WRONGTYPE Operation against a key holding the wrong kind of value"

/-- `HDel(ctx, "aaa", "bbb")` after it failed. -/
def cmdHDel : Cmder :=
  { Name := "hdel", Args := [Arg.str "hdel", Arg.str "aaa", Arg.str "bbb"],
    Err := some wrongType }

/-- `Get(ctx, "aaa")` before it is run. -/
def cmdGet : Cmder :=
  { Name := "get", Args := [Arg.str "get", Arg.str "aaa"], Err := none }

/-- The error of a probe that finds no server. -/
def dialError : GoError :=
  GoError.errorString 1 "dial tcp 127.0.0.1:6379: connect: connection refused"

/-- A hook as `InitRedis` builds it for `exampleConfig`. -/
def exampleHook : GoRedisHook :=
  { inDisable := fun name => if name ∈ ["flushdb"] then true else false,
    contextToLog := DefaultContextToLogger }

/-- A handle with debug off and only "flushdb" disabled. -/
def exampleOp : GoRedisOp :=
  { Cli := (NewClient exampleConfig.Options).AddHook exampleHook,
    Config := { exampleConfig with ContextToLog := some DefaultContextToLogger },
    bindCmd := ["flushdb"] }

/-- The after hook runs two milliseconds after a before hook that ran at `1000000` ns. -/
def exampleRuntime : Runtime :=
  { Op := exampleOp, redisLogger := initLogger, now := 3000000,
    callerFile := "go_redis_test.go", callerLine := 38 }

/-! ## Theorems -/

theorem anyDisabled_iff (Op : GoRedisOp) (cmds : List Cmder) :
    anyDisabled Op cmds = true ↔ ∃ c ∈ cmds, c.Name ∈ Op.bindCmd := by
  induction cmds with
  | nil => simp [anyDisabled]
  | cons c rest ih =>
    by_cases h : c.Name ∈ Op.bindCmd
    · simp [anyDisabled, GoRedisOp.inDisableCmd, h]
    · simp [anyDisabled, GoRedisOp.inDisableCmd, h, ih]

theorem mem_foldl_mapSet (ks m : List String) (x : String) :
    x ∈ ks.foldl mapSet m ↔ x ∈ m ∨ x ∈ ks := by
  induction ks generalizing m with
  | nil => simp
  | cons k rest ih =>
    rw [List.foldl_cons, ih]
    by_cases hk : k ∈ m
    · simp only [mapSet, hk, if_true, List.mem_cons]
      constructor
      · rintro (h | h)
        · exact Or.inl h
        · exact Or.inr (Or.inr h)
      · rintro (h | h | h)
        · exact Or.inl h
        · exact Or.inl (h ▸ hk)
        · exact Or.inr h
    · simp only [mapSet, hk, if_false, List.mem_append, List.mem_singleton, List.mem_cons]
      tauto

theorem mem_rangeBind (bind : Option (List String)) (x : String) :
    x ∈ rangeBind bind [] ↔ x ∈ bind.getD [] := by
  cases bind with
  | none => simp [rangeBind]
  | some ks => simp [rangeBind, mem_foldl_mapSet]

theorem mem_mapSet (m : List String) (k x : String) : x ∈ mapSet m k ↔ x ∈ m ∨ x = k := by
  by_cases hk : k ∈ m
  · simp only [mapSet, hk, if_true]
    constructor
    · exact Or.inl
    · rintro (h | h)
      · exact h
      · exact h ▸ hk
  · simp [mapSet, hk]

/-- C3: the handle `InitRedis` builds (the package variable `Op`, which is also the returned
handle when the probe succeeds) disables a name exactly when the name is a key of
`config.BindCmd` or is "flushdb"; so "flushdb" is disabled for every configuration, a nil or an
empty `BindCmd` included, where it is the only disabled name. -/
theorem InitRedis_inDisableCmd_iff (pkg : Pkg) (config : Config) (pingErr : Option GoError) :
    ∃ h : GoRedisOp, (InitRedis pkg config pingErr).pkg.Op = some h ∧
      ((InitRedis pkg config none).handle = some h) ∧
      (∀ name : String, h.inDisableCmd name = true ↔
        (name ∈ config.BindCmd.getD [] ∨ name = "flushdb")) ∧
      h.inDisableCmd "flushdb" = true ∧
      ((config.BindCmd = none ∨ config.BindCmd = some []) →
        ∀ name : String, h.inDisableCmd name = true ↔ name = "flushdb") := by
  have hmem : ∀ name : String,
      name ∈ mapSet (rangeBind config.BindCmd []) "flushdb" ↔
        (name ∈ config.BindCmd.getD [] ∨ name = "flushdb") := by
    intro name
    rw [mem_mapSet, mem_rangeBind]
  refine ⟨_, ?_, rfl, ?_, ?_, ?_⟩
  · cases pingErr <;> rfl
  · intro name
    simp only [GoRedisOp.inDisableCmd, ite_eq_left_iff, Bool.false_eq_true, imp_false,
      not_not]
    exact hmem name
  · simp only [GoRedisOp.inDisableCmd, ite_eq_left_iff, Bool.false_eq_true, imp_false,
      not_not]
    exact (hmem "flushdb").2 (Or.inr rfl)
  · intro hb name
    simp only [GoRedisOp.inDisableCmd, ite_eq_left_iff, Bool.false_eq_true, imp_false,
      not_not]
    rw [hmem name]
    rcases hb with hb | hb <;> simp [hb]

theorem BeforeProcess_fst (g : GoRedisHook) (now : Int) (ctx : Context) (cmd : Cmder) :
    (g.BeforeProcess now ctx cmd).1 =
      ctx.WithValue RedisStartKey (CtxVal.int64 (nowMicros now)) := by
  unfold GoRedisHook.BeforeProcess
  split <;> rfl

theorem BeforeProcessPipeline_fst (g : GoRedisHook) (Op : GoRedisOp) (now : Int)
    (ctx : Context) (cmds : List Cmder) :
    (g.BeforeProcessPipeline Op now ctx cmds).1 =
      ctx.WithValue RedisStartKey (CtxVal.int64 (nowMicros now)) := by
  unfold GoRedisHook.BeforeProcessPipeline
  split <;> rfl

theorem startTime_WithValue (ctx : Context) (n : Int) :
    startTime (ctx.WithValue RedisStartKey (CtxVal.int64 n)) = some n := by
  simp [startTime, Context.WithValue, Context.Value]

theorem debugFlag_iff (ctx : Context) :
    ((debugFlag ctx).2 && (debugFlag ctx).1) = true ↔
      ctx.Value DebugLogKey = some (CtxVal.bool true) := by
  unfold debugFlag
  split
  · next b h => simp [h]
  · next h =>
    simp only [Bool.and_self, Bool.false_eq_true, false_iff]
    intro h2
    exact h true h2

/-- The shape of every result of `AfterProcess` on a context that holds a start time. -/
theorem AfterProcess_of_startTime (g : GoRedisHook) (rt : Runtime) (ctx : Context) (cmd : Cmder)
    (t : Int) (ht : startTime ctx = some t) :
    ∃ logs : List LogCall, g.AfterProcess rt ctx cmd = some (logs, none) ∧
      (logs.length = 1 ↔ (cmd.Err ≠ none ∨ ctx.Value DebugLogKey = some (CtxVal.bool true) ∨
        rt.Op.Config.Debug = true)) ∧
      (logs = [] ↔ ¬ (cmd.Err ≠ none ∨ ctx.Value DebugLogKey = some (CtxVal.bool true) ∨
        rt.Op.Config.Debug = true)) := by
  have hd := debugFlag_iff ctx
  unfold GoRedisHook.AfterProcess
  rcases hflag : debugFlag ctx with ⟨d, ok⟩
  rw [hflag] at hd
  simp only [ht]
  by_cases hc : (cmd.Err.isSome || (ok && d) || rt.Op.Config.Debug) = true
  · have hcond : cmd.Err ≠ none ∨ ctx.Value DebugLogKey = some (CtxVal.bool true) ∨
        rt.Op.Config.Debug = true := by
      simp only [Bool.or_eq_true, Option.isSome_iff_ne_none] at hc
      rcases hc with (h | h) | h
      · exact Or.inl h
      · exact Or.inr (Or.inl (hd.1 h))
      · exact Or.inr (Or.inr h)
    rw [if_pos hc]
    cases hl : g.contextToLog rt.redisLogger ctx <;> cases he : cmd.Err <;>
      simp only [he, ne_eq, not_true_eq_false, false_or] at hcond <;>
      simp [hcond]
  · have hcond : ¬ (cmd.Err ≠ none ∨ ctx.Value DebugLogKey = some (CtxVal.bool true) ∨
        rt.Op.Config.Debug = true) := by
      simp only [Bool.or_eq_true, Option.isSome_iff_ne_none, not_or] at hc
      rintro (h | h | h)
      · exact hc.1.1 h
      · exact hc.1.2 (hd.2 h)
      · exact hc.2 h
    rw [if_neg hc]
    exact ⟨[], rfl, by simp [hcond], by simp [hcond]⟩

/-- C4: on a context produced by `BeforeProcess`, `AfterProcess` makes exactly one logger call
when the command's error is non-nil, or the context holds `true` under `DebugLogKey`, or
`Op.Config.Debug` is true, and none when none of the three holds; it returns the nil error in
both cases. -/
theorem AfterProcess_logs_iff (g : GoRedisHook) (now0 : Int) (parent : Context) (cmd0 : Cmder)
    (rt : Runtime) (cmd : Cmder) :
    ∃ logs : List LogCall,
      g.AfterProcess rt (g.BeforeProcess now0 parent cmd0).1 cmd = some (logs, none) ∧
      (logs.length = 1 ↔ (cmd.Err ≠ none ∨
        Context.Value (g.BeforeProcess now0 parent cmd0).1 DebugLogKey = some (CtxVal.bool true) ∨
        rt.Op.Config.Debug = true)) ∧
      (logs = [] ↔ ¬ (cmd.Err ≠ none ∨
        Context.Value (g.BeforeProcess now0 parent cmd0).1 DebugLogKey = some (CtxVal.bool true) ∨
        rt.Op.Config.Debug = true)) :=
  AfterProcess_of_startTime g rt _ cmd (nowMicros now0)
    (by rw [BeforeProcess_fst]; exact startTime_WithValue parent _)

/-- C1: `BeforeProcess` returns `ErrorNotAllow` exactly when the hook's filter reports the
command's name as disabled, and the nil error exactly when it does not. -/
theorem BeforeProcess_error_iff (g : GoRedisHook) (now : Int) (ctx : Context) (cmd : Cmder) :
    ((g.BeforeProcess now ctx cmd).2 = some ErrorNotAllow ↔ g.inDisable cmd.Name = true) ∧
    ((g.BeforeProcess now ctx cmd).2 = none ↔ g.inDisable cmd.Name = false) := by
  unfold GoRedisHook.BeforeProcess
  cases h : g.inDisable cmd.Name <;> simp

/-- C2: `BeforeProcessPipeline` returns `ErrorNotAllow` exactly when some command of the batch,
at any position, has its name in the disabled set of the handle `Op`; otherwise (so also for the
empty batch) it returns the nil error. -/
theorem BeforeProcessPipeline_error_iff (g : GoRedisHook) (Op : GoRedisOp) (now : Int)
    (ctx : Context) (cmds : List Cmder) :
    ((g.BeforeProcessPipeline Op now ctx cmds).2 = some ErrorNotAllow ↔
      ∃ i, ∃ h : i < cmds.length, (cmds.get ⟨i, h⟩).Name ∈ Op.bindCmd) ∧
    ((g.BeforeProcessPipeline Op now ctx cmds).2 = none ↔
      ¬ ∃ i, ∃ h : i < cmds.length, (cmds.get ⟨i, h⟩).Name ∈ Op.bindCmd) ∧
    (g.BeforeProcessPipeline Op now ctx []).2 = none := by
  have key : (∃ i, ∃ h : i < cmds.length, (cmds.get ⟨i, h⟩).Name ∈ Op.bindCmd) ↔
      anyDisabled Op cmds = true := by
    rw [anyDisabled_iff]
    constructor
    · rintro ⟨i, h, hi⟩
      exact ⟨_, List.get_mem cmds i h, hi⟩
    · rintro ⟨c, hc, hn⟩
      obtain ⟨n, rfl⟩ := List.get_of_mem hc
      exact ⟨n.1, n.2, hn⟩
  rw [key]
  unfold GoRedisHook.BeforeProcessPipeline
  cases h : anyDisabled Op cmds <;> simp [anyDisabled]

/-- C7: `IsRedisNilErr` returns nil for the sentinel `Nil`, nil for the nil error, and every
other error unchanged. -/
theorem IsRedisNilErr_spec :
    IsRedisNilErr (some Nil) = none ∧ IsRedisNilErr none = none ∧
    ∀ e : GoError, e ≠ Nil → IsRedisNilErr (some e) = some e := by
  refine ⟨by simp [IsRedisNilErr], by simp [IsRedisNilErr], ?_⟩
  intro e he
  simp [IsRedisNilErr, he]

/-- C5: for a command whose error is non-nil, whatever the debug flags and whichever logger the
hook obtains, `AfterProcess` makes exactly one logger call, it is a call of `Error`, on that
logger (with the caller fields attached when it is a `DefaultLog`), and its arguments include
the command's `Args()` and `Err()`. -/
theorem AfterProcess_error_entry (g : GoRedisHook) (now0 : Int) (parent : Context)
    (cmd0 : Cmder) (rt : Runtime) (cmd : Cmder) (e : GoError) (he : cmd.Err = some e) :
    ∃ entry : LogCall,
      g.AfterProcess rt (g.BeforeProcess now0 parent cmd0).1 cmd = some ([entry], none) ∧
      entry.method = Level.Error ∧
      FmtArg.args cmd.Args ∈ entry.args ∧ FmtArg.err e ∈ entry.args ∧
      (entry.logger = g.contextToLog rt.redisLogger (g.BeforeProcess now0 parent cmd0).1 ∨
        ∃ z : ZapLogger,
          g.contextToLog rt.redisLogger (g.BeforeProcess now0 parent cmd0).1 =
            Logger.DefaultLog z ∧
          entry.logger = Logger.DefaultLog (z.With (callerFields rt (nowMicros now0)))) := by
  have ht : startTime (g.BeforeProcess now0 parent cmd0).1 = some (nowMicros now0) := by
    rw [BeforeProcess_fst]; exact startTime_WithValue parent _
  generalize (g.BeforeProcess now0 parent cmd0).1 = ctx at ht ⊢
  unfold GoRedisHook.AfterProcess
  rcases debugFlag ctx with ⟨d, ok⟩
  simp only [he, ht, Option.isSome_some, Bool.true_or, if_true]
  cases hl : g.contextToLog rt.redisLogger ctx <;> simp [Logger.Error]

/-- C5, at the failing `HDel` of the tests with the default logger. -/
theorem AfterProcess_error_entry_witness :
    cmdHDel.Err = some wrongType ∧
    ∃ entry : LogCall,
      exampleHook.AfterProcess exampleRuntime
        (exampleHook.BeforeProcess 1000000 [] cmdHDel).1 cmdHDel = some ([entry], none) ∧
      entry.method = Level.Error ∧
      FmtArg.args cmdHDel.Args ∈ entry.args ∧ FmtArg.err wrongType ∈ entry.args ∧
      (entry.logger = exampleHook.contextToLog exampleRuntime.redisLogger
          (exampleHook.BeforeProcess 1000000 [] cmdHDel).1 ∨
        ∃ z : ZapLogger,
          exampleHook.contextToLog exampleRuntime.redisLogger
            (exampleHook.BeforeProcess 1000000 [] cmdHDel).1 = Logger.DefaultLog z ∧
          entry.logger =
            Logger.DefaultLog (z.With (callerFields exampleRuntime (nowMicros 1000000)))) :=
  ⟨rfl, AfterProcess_error_entry exampleHook 1000000 [] cmdHDel exampleRuntime cmdHDel
    wrongType rfl⟩

theorem failure_firstFailed (cmds : List Cmder) (hfail : ∃ c ∈ cmds, c.Err ≠ none) :
    ∃ i, ∃ hi : i < cmds.length, ∃ e : GoError,
      (cmds.get ⟨i, hi⟩).Err = some e ∧
      (∀ j, ∀ hj : j < cmds.length, j < i → (cmds.get ⟨j, hj⟩).Err = none) ∧
      failure (firstFailed cmds) = some (cmds.get ⟨i, hi⟩, e) := by
  induction cmds with
  | nil => simp at hfail
  | cons v rest ih =>
    cases hv : v.Err with
    | some e =>
      refine ⟨0, by simp, e, by simpa using hv, ?_, ?_⟩
      · intro j _ hj
        exact absurd hj (Nat.not_lt_zero j)
      · simp [firstFailed, failure, hv]
    | none =>
      have hrest : ∃ c ∈ rest, c.Err ≠ none := by
        obtain ⟨c, hc, hne⟩ := hfail
        rcases List.mem_cons.1 hc with rfl | hc
        · exact absurd hv hne
        · exact ⟨c, hc, hne⟩
      obtain ⟨i, hi, e, h1, h2, h3⟩ := ih hrest
      refine ⟨i + 1, by simpa using hi, e, by simpa using h1, ?_, ?_⟩
      · intro j hj hlt
        cases j with
        | zero => simpa using hv
        | succ k =>
          have hk : k < rest.length := by simpa using hj
          simpa using h2 k hk (by omega)
      · simpa [firstFailed, hv] using h3

/-- C6: for a batch with at least one failed command, `AfterProcessPipeline` (on the context of
`BeforeProcessPipeline`) makes exactly one logger call, a call of `Error`, whose command
arguments and error are those of the failed command of smallest index, preceded at most by the
caller file, line and time cost; nothing of a later command is passed, and no call of `Debug`
is made whatever the debug flags. -/
theorem AfterProcessPipeline_first_error (g : GoRedisHook) (Op0 : GoRedisOp) (now0 : Int)
    (parent : Context) (cmds0 : List Cmder) (rt : Runtime) (cmds : List Cmder)
    (hfail : ∃ c ∈ cmds, c.Err ≠ none) :
    ∃ i, ∃ hi : i < cmds.length, ∃ e : GoError, ∃ entry : LogCall,
      (cmds.get ⟨i, hi⟩).Err = some e ∧
      (∀ j, ∀ hj : j < cmds.length, j < i → (cmds.get ⟨j, hj⟩).Err = none) ∧
      g.AfterProcessPipeline rt (g.BeforeProcessPipeline Op0 now0 parent cmds0).1 cmds =
        some ([entry], none) ∧
      entry.method = Level.Error ∧
      (entry.args = [FmtArg.args (cmds.get ⟨i, hi⟩).Args, FmtArg.err e] ∨
        entry.args = [FmtArg.str rt.callerFile, FmtArg.int rt.callerLine,
          FmtArg.int (timeCost rt (nowMicros now0)),
          FmtArg.args (cmds.get ⟨i, hi⟩).Args, FmtArg.err e]) := by
  obtain ⟨i, hi, e, h1, h2, h3⟩ := failure_firstFailed cmds hfail
  have ht : startTime (g.BeforeProcessPipeline Op0 now0 parent cmds0).1 =
      some (nowMicros now0) := by
    rw [BeforeProcessPipeline_fst]; exact startTime_WithValue parent _
  generalize (g.BeforeProcessPipeline Op0 now0 parent cmds0).1 = ctx at ht ⊢
  refine ⟨i, hi, e, ?_⟩
  unfold GoRedisHook.AfterProcessPipeline
  rcases debugFlag ctx with ⟨d, ok⟩
  simp only [h3, ht, Option.isSome_some, Bool.true_or, if_true]
  cases hl : g.contextToLog rt.redisLogger ctx
  · exact ⟨_, h1, h2, rfl, rfl, Or.inl rfl⟩
  · exact ⟨_, h1, h2, rfl, rfl, Or.inr rfl⟩

/-- C6, at the second batch of `TestPipeline`: a `Set` that succeeds, then an `HDel` that
fails. -/
theorem AfterProcessPipeline_first_error_witness :
    (∃ c ∈ [cmdSet, cmdHDel], c.Err ≠ none) ∧
    ∃ i, ∃ hi : i < [cmdSet, cmdHDel].length, ∃ e : GoError, ∃ entry : LogCall,
      ([cmdSet, cmdHDel].get ⟨i, hi⟩).Err = some e ∧
      (∀ j, ∀ hj : j < [cmdSet, cmdHDel].length, j < i →
        ([cmdSet, cmdHDel].get ⟨j, hj⟩).Err = none) ∧
      exampleHook.AfterProcessPipeline exampleRuntime
        (exampleHook.BeforeProcessPipeline exampleOp 1000000 [] [cmdSet, cmdHDel]).1
        [cmdSet, cmdHDel] = some ([entry], none) ∧
      entry.method = Level.Error ∧
      (entry.args = [FmtArg.args ([cmdSet, cmdHDel].get ⟨i, hi⟩).Args, FmtArg.err e] ∨
        entry.args = [FmtArg.str exampleRuntime.callerFile,
          FmtArg.int exampleRuntime.callerLine,
          FmtArg.int (timeCost exampleRuntime (nowMicros 1000000)),
          FmtArg.args ([cmdSet, cmdHDel].get ⟨i, hi⟩).Args, FmtArg.err e]) :=
  ⟨⟨cmdHDel, by simp, by simp [cmdHDel]⟩,
    AfterProcessPipeline_first_error exampleHook exampleOp 1000000 [] [cmdSet, cmdHDel]
      exampleRuntime [cmdSet, cmdHDel] ⟨cmdHDel, by simp, by simp [cmdHDel]⟩⟩

/-- What `InitRedis` builds for `exampleConfig` when the probe succeeds: `exampleOp`, whose
client carries `exampleHook`. -/
theorem InitRedis_exampleConfig :
    (InitRedis initPkg exampleConfig none).handle = some exampleOp ∧
    (InitRedis initPkg exampleConfig none).pkg.Op = some exampleOp ∧
    exampleOp.Cli.hooks = [exampleHook] :=
  ⟨rfl, rfl, rfl⟩

/-- The hook `InitRedis` installs agrees with the handle it stores in `Op`: both before hooks
consult the same set as long as `Op` is that handle. -/
theorem InitRedis_hook_filter (pkg : Pkg) (config : Config) (pingErr : Option GoError) :
    ∃ (Op : GoRedisOp) (hook : GoRedisHook),
      (InitRedis pkg config pingErr).pkg.Op = some Op ∧ Op.Cli.hooks = [hook] ∧
      ∀ name : String, hook.inDisable name = Op.inDisableCmd name := by
  cases pingErr <;> exact ⟨_, _, rfl, rfl, fun _ => rfl⟩

/-- C8 (the code at a failed probe): with no server listening, `InitRedis` returns the nil
handle and the probe's error, and has logged it, yet the package variable `Op` is a handle
whose `Cli` is the client just built from the configuration, hook installed. -/
theorem InitRedis_failed_probe_keeps_Op :
    (InitRedis initPkg exampleConfig (some dialError)).handle = none ∧
    (InitRedis initPkg exampleConfig (some dialError)).err = some dialError ∧
    (InitRedis initPkg exampleConfig (some dialError)).logs =
      [initLogger.Error "Redis tcp ping error:%v" [FmtArg.err dialError]] ∧
    ∃ Op : GoRedisOp,
      (InitRedis initPkg exampleConfig (some dialError)).pkg.Op = some Op ∧
      Op.Cli = (NewClient exampleConfig.Options).AddHook exampleHook ∧
      Op.Cli.options.Addr = "127.0.0.1:6379" :=
  ⟨rfl, rfl, rfl, _, rfl, rfl, rfl⟩

/-- C9 (the code on a successful one-command batch run under `GetDebugContext`, default
logger): `AfterProcessPipeline` makes its `Debug` call on the logger as obtained, which has no
field attached, so the entry carries neither caller file, line nor time cost; `AfterProcess` on
the same command makes its `Debug` call on the logger with the three fields. -/
theorem AfterProcessPipeline_debug_entry_lacks_fields :
    exampleHook.AfterProcessPipeline exampleRuntime
        (exampleHook.BeforeProcessPipeline exampleOp 1000000 (GetDebugContext []) [cmdSet]).1
        [cmdSet] =
      some ([initLogger.Debug "redis pipeline cmds:%s" [FmtArg.str "set aaa aaa ex 1 ;  "]],
        none) ∧
    (initLogger.Debug "redis pipeline cmds:%s" [FmtArg.str "set aaa aaa ex 1 ;  "]).fields
      = [] ∧
    (exampleHook.AfterProcess exampleRuntime
        (exampleHook.BeforeProcess 1000000 (GetDebugContext []) cmdSet).1 cmdSet).map
      (fun r => r.1.map LogCall.fields) =
      some [[{ key := "real_caller", val := ZapVal.str "go_redis_test.go" },
        { key := "line", val := ZapVal.int 38 },
        { key := "redisTimeCost/us", val := ZapVal.int 2000 }]] := by
  refine ⟨?_, ?_, ?_⟩ <;> decide

/-- C10 (the code after two calls of `InitRedis`, the first disabling "get", the second not):
the hook of the first client rejects `Get` in `BeforeProcess`, through its own filter, and
accepts the batch holding that one command in `BeforeProcessPipeline`, which asks the handle
now in `Op`. -/
theorem BeforeProcessPipeline_bypasses_hook_filter :
    ∃ (Op1 : GoRedisOp) (hook1 : GoRedisHook) (Op2 : GoRedisOp),
      (InitRedis initPkg bindGetConfig none).handle = some Op1 ∧
      Op1.Cli.hooks = [hook1] ∧
      (InitRedis (InitRedis initPkg bindGetConfig none).pkg exampleConfig none).pkg.Op =
        some Op2 ∧
      (hook1.BeforeProcess 1000000 [] cmdGet).2 = some ErrorNotAllow ∧
      (hook1.BeforeProcessPipeline Op2 1000000 [] [cmdGet]).2 = none :=
  ⟨_, _, _, rfl, rfl, rfl, by decide, by decide⟩

end GoRedis
